import Mathlib

/-!
Shallow embedding of `src/bat-truckload.py` (a pandas/streamlit milestone
completeness checker) together with proofs of the spec's testable properties.

Modelling conventions:
- A cell value is `Option Cell`: `none` models a pandas null (NaN/None/NaT),
  `some c` a concrete string or numeric cell.  `pd.isna` is `· = none`.
- A `DataFrame` is a column-name list plus a list of rows, each row a list of
  cell values positionally aligned with the column names.
- `KeyError` raised for a missing required column is modelled as the
  `SchemaError` result of an `Except`.
- Floating-point division is modelled over `ℚ`.
- pandas `groupby` uses its defaults: null keys are dropped (`dropna=True`)
  and group keys are sorted ascending (`sort=True`).
- `DataFrame.sort_values` uses numpy's default quicksort, which degenerates
  to (stable) insertion sort on the small summary tables at hand; it is
  modelled as a stable insertion sort.
-/

/-- A non-null spreadsheet cell: a string or a number. -/
inductive Cell where
  | str (s : String)
  | num (q : ℚ)
deriving DecidableEq, Repr

/-- A cell value as pandas sees it: `none` is null (NaN/None/NaT). -/
abbrev Value := Option Cell

/-- A tabular frame: named columns and positional rows. -/
structure DataFrame where
  cols : List String
  rows : List (List Value)
deriving DecidableEq, Repr

/-- `row[c]`: the value of column `c` in a row of a frame with columns
`cols`; `none` when the column is absent (guarded call sites never hit
that case). -/
def getVal (cols : List String) (row : List Value) (c : String) : Value :=
  match cols.indexOf? c with
  | some i => row.getD i none
  | none => none

/-- `df[c] = vals`: pandas column assignment — overwrites the column in
place when it exists, otherwise appends it on the right. -/
def setCol (df : DataFrame) (c : String) (vals : List Value) : DataFrame :=
  if c ∈ df.cols then
    { cols := df.cols
      rows := (df.rows.zip vals).map fun p => p.1.set (df.cols.indexOf c) p.2 }
  else
    { cols := df.cols ++ [c]
      rows := (df.rows.zip vals).map fun p => p.1 ++ [p.2] }

/-- The four milestone timestamp columns (`MILESTONE_COLS`). -/
def MILESTONE_COLS : List String :=
  [ "Pickup Arrival Utc Timestamp Raw"
  , "Pickup Departure Utc Timestamp Raw"
  , "Dropoff Arrival Utc Timestamp Raw"
  , "Dropoff Departure Utc Timestamp Raw" ]

/-- The grouping column (`PICKUP_COUNTRY_COL`). -/
def PICKUP_COUNTRY_COL : String := "Pickup Country"

/-- The name of the derived column. -/
def TRACKING_STATUS_COL : String := "Tracking Status"

/-- A required column was missing: the `KeyError` of the python code
(the spec's `SchemaError`). -/
inductive SchemaError where
  | missingCols (cs : List String)
  | missingCol (c : String)
deriving DecidableEq, Repr

/-- `status_row`: classify one row from its four milestone values
(`isna().all()` → Untracked, `notna().all()` → Fully Tracked, else
Partially Tracked). -/
def status_row (cols : List String) (row : List Value) : String :=
  let vals := MILESTONE_COLS.map (getVal cols row)
  if vals.all (· = none) then "Untracked"
  else if vals.all (· ≠ none) then "Fully Tracked"
  else "Partially Tracked"

/-- `compute_tracking_status`: check that every milestone column is
present (collecting all missing names into one error), then append the
`Tracking Status` column computed row-wise; the input frame is copied,
not mutated. -/
def compute_tracking_status (df : DataFrame) : Except SchemaError DataFrame :=
  let missing := MILESTONE_COLS.filter (fun c => c ∉ df.cols)
  if missing.isEmpty then
    .ok (setCol df TRACKING_STATUS_COL
      (df.rows.map fun r => some (.str (status_row df.cols r))))
  else
    .error (.missingCols missing)

/-- Lexicographic code-point comparison of character lists (how pandas
orders string keys). -/
def charListLe : List Char → List Char → Bool
  | [], _ => true
  | _ :: _, [] => false
  | a :: s, b :: t =>
    if a.toNat < b.toNat then true
    else if b.toNat < a.toNat then false
    else charListLe s t

/-- Ascending comparison on cells as pandas sorts group keys (strings
lexicographically, numbers numerically; the mixed case never arises for
a homogeneous country column). -/
def cellLe (a b : Cell) : Bool :=
  match a, b with
  | .str s, .str t => charListLe s.data t.data
  | .num p, .num q => decide (p ≤ q)
  | .num _, .str _ => true
  | .str _, .num _ => false

/-- Keep the first occurrence of every element, dropping later
duplicates (the order in which distinct country values first appear). -/
def firstDedup : List Cell → List Cell
  | [] => []
  | a :: l => a :: (firstDedup l).filter (fun x => x ≠ a)

/-- Insert `a` in front of the first element `b` with `le a b`; keeps
insertion stable for `a` coming earlier in the original list. -/
def insertBy (le : Cell → Cell → Bool) (a : Cell) : List Cell → List Cell
  | [] => [a]
  | b :: l => if le a b then a :: b :: l else b :: insertBy le a l

/-- Stable insertion sort on cells. -/
def sortCells (le : Cell → Cell → Bool) : List Cell → List Cell
  | [] => []
  | a :: l => insertBy le a (sortCells le l)

/-- One row of the summary table, with every derived column the python
code materializes (`Fully Tracked`, `Partially Tracked`, `Untracked`,
`Grand Total`, `Fully Tracked %`, `Data Availability %`). -/
structure SummaryRow where
  country : Cell
  fully : ℕ
  partly : ℕ
  untracked : ℕ
  total : ℕ
  fullyPct : ℚ
  availPct : ℚ
deriving DecidableEq, Repr

/-- The distinct non-null country values in input order (`dropna=True`:
null country cells yield no group key). -/
def countryKeys (df : DataFrame) : List Cell :=
  firstDedup (df.rows.filterMap fun r => getVal df.cols r PICKUP_COUNTRY_COL)

/-- The rows belonging to one country group. -/
def groupRows (df : DataFrame) (k : Cell) : List (List Value) :=
  df.rows.filter fun r => getVal df.cols r PICKUP_COUNTRY_COL = some k

/-- How many rows of a group carry a given tracking-status label. -/
def countStatus (df : DataFrame) (k : Cell) (s : String) : ℕ :=
  ((groupRows df k).filter
    (fun r => getVal df.cols r TRACKING_STATUS_COL = some (.str s))).length

/-- Build the summary row of one country group exactly as the python
code fills its columns: the three counts, their sum as `Grand Total`,
and the two ratios scaled to percent. -/
def mkSummaryRow (df : DataFrame) (k : Cell) : SummaryRow :=
  let f := countStatus df k "Fully Tracked"
  let p := countStatus df k "Partially Tracked"
  let u := countStatus df k "Untracked"
  let t := f + p + u
  { country := k
    fully := f
    partly := p
    untracked := u
    total := t
    fullyPct := (f : ℚ) / (t : ℚ) * 100
    availPct := ((f : ℚ) + (p : ℚ)) / (t : ℚ) * 100 }

/-- Insert a summary row in front of the first row whose `Grand Total`
is at most its own (stable descending insertion, ties keep earlier
elements' relative order). -/
def insertRowDesc (a : SummaryRow) : List SummaryRow → List SummaryRow
  | [] => [a]
  | b :: l => if b.total ≤ a.total then a :: b :: l else b :: insertRowDesc a l

/-- Stable sort of summary rows by `Grand Total` descending
(`sort_values("Grand Total", ascending=False)`). -/
def sortRowsDesc : List SummaryRow → List SummaryRow
  | [] => []
  | a :: l => insertRowDesc a (sortRowsDesc l)

/-- The summary table of a frame: group keys sorted ascending with
nulls dropped, one `SummaryRow` per key, then the final sort by
`Grand Total` descending. -/
def summaryOf (df : DataFrame) : List SummaryRow :=
  sortRowsDesc ((sortCells cellLe (countryKeys df)).map (mkSummaryRow df))

/-- `build_summary`: check the country column (then the status column,
whose absence pandas would also report as a `KeyError`), group by the
country value with sorted keys and dropped nulls, tally the three
status labels, derive totals and percentages, and sort by `Grand Total`
descending. -/
def build_summary (df : DataFrame) : Except SchemaError (List SummaryRow) :=
  if PICKUP_COUNTRY_COL ∉ df.cols then
    .error (.missingCol PICKUP_COUNTRY_COL)
  else if TRACKING_STATUS_COL ∉ df.cols then
    .error (.missingCol TRACKING_STATUS_COL)
  else
    .ok (summaryOf df)

/-- The output order the final sort actually guarantees: `Grand Total`
strictly descending, and rows with equal totals keep the relative order
`S` they had before that sort. -/
def DescThen (S : SummaryRow → SummaryRow → Prop) (a b : SummaryRow) : Prop :=
  b.total < a.total ∨ (a.total = b.total ∧ S a b)

/-- The downloadable workbook: sheet "Enriched Data" and sheet
"Summary", each a direct rendering of the table it is given. -/
structure OutputExcel where
  enriched : DataFrame
  summary : List SummaryRow
deriving DecidableEq, Repr

/-- `create_output_excel`: write both tables unchanged into their
sheets. -/
def create_output_excel (e : DataFrame) (s : List SummaryRow) : OutputExcel :=
  { enriched := e, summary := s }

/-- The whole per-upload pipeline: classify, summarize, write; any
stage's error aborts the run. -/
def run_pipeline (df_raw : DataFrame) : Except SchemaError OutputExcel :=
  match compute_tracking_status df_raw with
  | .error e => .error e
  | .ok enriched =>
    match build_summary enriched with
    | .error e => .error e
    | .ok summary => .ok (create_output_excel enriched summary)

/-! ### Concrete example frames

The scenario of §8 of the spec (four rows, countries US/US/US/DE) plus
small frames exhibiting the divergences found. -/

/-- The raw §8 scenario frame. -/
def exRaw : DataFrame :=
  { cols := PICKUP_COUNTRY_COL :: MILESTONE_COLS
    rows :=
      [ [some (.str "US"), some (.num 1), some (.num 1), some (.num 1), some (.num 1)]
      , [some (.str "US"), none, none, none, none]
      , [some (.str "US"), some (.num 1), none, some (.num 1), none]
      , [some (.str "DE"), none, none, none, none] ] }

/-- The §8 scenario frame after classification. -/
def exEnriched : DataFrame :=
  { cols := (PICKUP_COUNTRY_COL :: MILESTONE_COLS) ++ [TRACKING_STATUS_COL]
    rows :=
      [ [some (.str "US"), some (.num 1), some (.num 1), some (.num 1), some (.num 1),
         some (.str "Fully Tracked")]
      , [some (.str "US"), none, none, none, none, some (.str "Untracked")]
      , [some (.str "US"), some (.num 1), none, some (.num 1), none,
         some (.str "Partially Tracked")]
      , [some (.str "DE"), none, none, none, none, some (.str "Untracked")] ] }

/-- Two enriched one-row groups with equal totals, country "B" first
encountered before "A". -/
def exTie : DataFrame :=
  { cols := [PICKUP_COUNTRY_COL, TRACKING_STATUS_COL]
    rows := [ [some (.str "B"), some (.str "Fully Tracked")]
            , [some (.str "A"), some (.str "Fully Tracked")] ] }

/-- One enriched record whose country cell is null. -/
def exNullCountry : DataFrame :=
  { cols := [PICKUP_COUNTRY_COL, TRACKING_STATUS_COL]
    rows := [ [none, some (.str "Untracked")] ] }

/-- An input frame that already carries a `Tracking Status` column. -/
def exPreStatus : DataFrame :=
  { cols := TRACKING_STATUS_COL :: MILESTONE_COLS
    rows := [ [some (.str "old"), some (.num 1), some (.num 1), some (.num 1),
               some (.num 1)] ] }

/-- An input frame missing three of the four milestone columns. -/
def exMissing : DataFrame :=
  { cols := ["Pickup Arrival Utc Timestamp Raw", PICKUP_COUNTRY_COL]
    rows := [[some (.num 1), some (.str "US")]] }

/-- A record whose four milestone cells all hold the empty string. -/
def exEmptyStrRow : List Value :=
  [some (.str ""), some (.str ""), some (.str ""), some (.str "")]

/-! ## Helper lemmas on the ordering primitives -/

theorem charListLe_total : ∀ s t, charListLe s t = true ∨ charListLe t s = true := by
  intro s
  induction s with
  | nil => intro t; left; cases t <;> rfl
  | cons a s ih =>
    intro t
    cases t with
    | nil => right; rfl
    | cons b t =>
      rcases Nat.lt_trichotomy a.toNat b.toNat with h | h | h
      · left; simp [charListLe, h]
      · have h1 : ¬ a.toNat < b.toNat := by omega
        have h2 : ¬ b.toNat < a.toNat := by omega
        simpa [charListLe, h1, h2] using ih t
      · right; simp [charListLe, h]

theorem charListLe_trans :
    ∀ s t u, charListLe s t = true → charListLe t u = true → charListLe s u = true := by
  intro s
  induction s with
  | nil => intro t u _ _; cases u <;> rfl
  | cons a s ih =>
    intro t u hst htu
    cases t with
    | nil => simp [charListLe] at hst
    | cons b t =>
      cases u with
      | nil => simp [charListLe] at htu
      | cons c u =>
        simp only [charListLe] at hst htu ⊢
        rcases Nat.lt_trichotomy a.toNat b.toNat with hab | hab | hab <;>
          rcases Nat.lt_trichotomy b.toNat c.toNat with hbc | hbc | hbc
        · simp [show a.toNat < c.toNat by omega]
        · simp [show a.toNat < c.toNat by omega]
        · simp [show ¬ b.toNat < c.toNat by omega, hbc] at htu
        · simp [show a.toNat < c.toNat by omega]
        · simp only [hab, hbc, lt_irrefl, if_false] at hst htu ⊢
          exact ih t u hst htu
        · simp [show ¬ b.toNat < c.toNat by omega, hbc] at htu
        · simp [show ¬ a.toNat < b.toNat by omega, hab] at hst
        · simp [show ¬ a.toNat < b.toNat by omega, hab] at hst
        · simp [show ¬ a.toNat < b.toNat by omega, hab] at hst

theorem cellLe_total (a b : Cell) : cellLe a b = true ∨ cellLe b a = true := by
  cases a <;> cases b <;> simp [cellLe]
  · exact charListLe_total ..
  · exact le_total ..

theorem cellLe_trans {a b c : Cell} (h1 : cellLe a b = true) (h2 : cellLe b c = true) :
    cellLe a c = true := by
  cases a <;> cases b <;> cases c <;> simp_all [cellLe]
  · exact charListLe_trans _ _ _ h1 h2
  · exact le_trans h1 h2

theorem mem_insertBy {le : Cell → Cell → Bool} {a x : Cell} :
    ∀ {l : List Cell}, x ∈ insertBy le a l ↔ x = a ∨ x ∈ l := by
  intro l
  induction l with
  | nil => simp [insertBy]
  | cons b l ih =>
    by_cases h : le a b
    · simp [insertBy, h]
    · simp only [insertBy, if_neg h, List.mem_cons, ih]
      tauto

theorem perm_insertBy (le : Cell → Cell → Bool) (a : Cell) :
    ∀ (l : List Cell), List.Perm (insertBy le a l) (a :: l) := by
  intro l
  induction l with
  | nil => simp [insertBy]
  | cons b l ih =>
    by_cases h : le a b
    · simp [insertBy, h]
    · simp only [insertBy, if_neg h]
      exact (ih.cons b).trans (List.Perm.swap a b l)

theorem perm_sortCells (le : Cell → Cell → Bool) :
    ∀ (l : List Cell), List.Perm (sortCells le l) l := by
  intro l
  induction l with
  | nil => simp [sortCells]
  | cons a l ih =>
    exact (perm_insertBy le a (sortCells le l)).trans (ih.cons a)

theorem mem_sortCells {le : Cell → Cell → Bool} {x : Cell} {l : List Cell} :
    x ∈ sortCells le l ↔ x ∈ l :=
  (perm_sortCells le l).mem_iff

theorem pairwise_insertBy_le {a : Cell} :
    ∀ {l : List Cell}, (l.Pairwise fun x y => cellLe x y = true) →
      (insertBy cellLe a l).Pairwise fun x y => cellLe x y = true := by
  intro l
  induction l with
  | nil => intro _; simp [insertBy]
  | cons b l ih =>
    intro h
    rcases List.pairwise_cons.mp h with ⟨hb, hl⟩
    by_cases hab : cellLe a b
    · rw [insertBy, if_pos hab]
      refine List.pairwise_cons.mpr ⟨?_, h⟩
      intro x hx
      rcases List.mem_cons.mp hx with rfl | hx
      · exact hab
      · exact cellLe_trans hab (hb x hx)
    · rw [insertBy, if_neg hab]
      refine List.pairwise_cons.mpr ⟨?_, ih hl⟩
      intro x hx
      rcases mem_insertBy.mp hx with rfl | hx
      · rcases cellLe_total x b with h1 | h1
        · exact absurd h1 hab
        · exact h1
      · exact hb x hx

theorem pairwise_sortCells :
    ∀ (l : List Cell), (sortCells cellLe l).Pairwise fun x y => cellLe x y = true := by
  intro l
  induction l with
  | nil => simp [sortCells]
  | cons a l ih => exact pairwise_insertBy_le ih

theorem mem_firstDedup {x : Cell} : ∀ {l : List Cell}, x ∈ firstDedup l ↔ x ∈ l := by
  intro l
  induction l with
  | nil => simp [firstDedup]
  | cons a l ih =>
    simp only [firstDedup, List.mem_cons, List.mem_filter, ih]
    by_cases hx : x = a
    · simp [hx]
    · simp [hx]

theorem nodup_firstDedup : ∀ (l : List Cell), (firstDedup l).Nodup := by
  intro l
  induction l with
  | nil => simp [firstDedup]
  | cons a l ih =>
    refine List.nodup_cons.mpr ⟨?_, List.Nodup.filter _ ih⟩
    intro ha
    rcases List.mem_filter.mp ha with ⟨_, hne⟩
    simp at hne

/-! ## Helper lemmas on the summary-row sort -/

theorem mem_insertRowDesc {a x : SummaryRow} :
    ∀ {l : List SummaryRow}, x ∈ insertRowDesc a l ↔ x = a ∨ x ∈ l := by
  intro l
  induction l with
  | nil => simp [insertRowDesc]
  | cons b l ih =>
    by_cases h : b.total ≤ a.total
    · simp [insertRowDesc, h]
    · simp only [insertRowDesc, if_neg h, List.mem_cons, ih]
      tauto

theorem mem_sortRowsDesc {x : SummaryRow} :
    ∀ {l : List SummaryRow}, x ∈ sortRowsDesc l ↔ x ∈ l := by
  intro l
  induction l with
  | nil => simp [sortRowsDesc]
  | cons a l ih =>
    simp only [sortRowsDesc, mem_insertRowDesc, List.mem_cons, ih]

theorem descThen_total_le {S : SummaryRow → SummaryRow → Prop} {a b : SummaryRow}
    (h : DescThen S a b) : b.total ≤ a.total := by
  rcases h with h | ⟨h, _⟩
  · exact le_of_lt h
  · exact le_of_eq h.symm

theorem pairwise_insertRowDesc {S : SummaryRow → SummaryRow → Prop} {a : SummaryRow} :
    ∀ {m : List SummaryRow}, m.Pairwise (DescThen S) → (∀ x ∈ m, S a x) →
      (insertRowDesc a m).Pairwise (DescThen S) := by
  intro m
  induction m with
  | nil => intro _ _; simp [insertRowDesc, List.pairwise_cons]
  | cons b m ih =>
    intro hm ha
    rcases List.pairwise_cons.mp hm with ⟨hb, hm2⟩
    by_cases hba : b.total ≤ a.total
    · rw [insertRowDesc, if_pos hba]
      refine List.pairwise_cons.mpr ⟨?_, hm⟩
      intro x hx
      rcases List.mem_cons.mp hx with rfl | hx
      · rcases lt_or_eq_of_le hba with h1 | h1
        · exact Or.inl h1
        · exact Or.inr ⟨h1.symm, ha _ (List.mem_cons_self _ _)⟩
      · have h2 : x.total ≤ b.total := descThen_total_le (hb x hx)
        rcases lt_or_eq_of_le (le_trans h2 hba) with h3 | h3
        · exact Or.inl h3
        · exact Or.inr ⟨h3.symm, ha x (List.mem_cons_of_mem b hx)⟩
    · rw [insertRowDesc, if_neg hba]
      refine List.pairwise_cons.mpr ⟨?_, ih hm2 (fun x hx => ha x (List.mem_cons_of_mem b hx))⟩
      intro y hy
      rcases mem_insertRowDesc.mp hy with rfl | hy
      · exact Or.inl (lt_of_not_le hba)
      · exact hb y hy

theorem pairwise_sortRowsDesc {S : SummaryRow → SummaryRow → Prop} :
    ∀ {l : List SummaryRow}, l.Pairwise S → (sortRowsDesc l).Pairwise (DescThen S) := by
  intro l
  induction l with
  | nil => intro _; simp [sortRowsDesc]
  | cons a l ih =>
    intro h
    rcases List.pairwise_cons.mp h with ⟨ha, hl⟩
    exact pairwise_insertRowDesc (ih hl) (fun x hx => ha x (mem_sortRowsDesc.mp hx))

/-! ## Inversion lemmas for the two pipeline stages -/

theorem build_summary_ok {df : DataFrame} {rows : List SummaryRow}
    (h : build_summary df = .ok rows) : rows = summaryOf df := by
  unfold build_summary at h
  split at h
  · exact absurd h (by simp)
  · split at h
    · exact absurd h (by simp)
    · injection h with h
      exact h.symm

theorem build_summary_cols {df : DataFrame} {rows : List SummaryRow}
    (h : build_summary df = .ok rows) :
    PICKUP_COUNTRY_COL ∈ df.cols ∧ TRACKING_STATUS_COL ∈ df.cols := by
  unfold build_summary at h
  split at h
  · exact absurd h (by simp)
  · split at h
    · exact absurd h (by simp)
    · next h1 h2 => exact ⟨not_not.mp h1, not_not.mp h2⟩

theorem compute_tracking_status_ok {df out : DataFrame}
    (h : compute_tracking_status df = .ok out) :
    (∀ c ∈ MILESTONE_COLS, c ∈ df.cols) ∧
      out = setCol df TRACKING_STATUS_COL
        (df.rows.map fun r => some (.str (status_row df.cols r))) := by
  simp only [compute_tracking_status] at h
  split at h
  · next hcond =>
    refine ⟨?_, by injection h with h; exact h.symm⟩
    intro c hc
    by_contra hnc
    have : c ∈ MILESTONE_COLS.filter (fun c => c ∉ df.cols) :=
      List.mem_filter.mpr ⟨hc, by simpa using hnc⟩
    rw [List.isEmpty_iff.mp hcond] at this
    simp at this
  · exact absurd h (by simp)

/-! ## Helper lemmas on `status_row` -/

theorem status_row_eq_ite (cols : List String) (row : List Value) :
    status_row cols row =
      if ((MILESTONE_COLS.map (getVal cols row)).all (· = none)) = true then "Untracked"
      else if ((MILESTONE_COLS.map (getVal cols row)).all (· ≠ none)) = true then "Fully Tracked"
      else "Partially Tracked" := rfl

theorem status_row_untracked_iff (cols : List String) (row : List Value) :
    status_row cols row = "Untracked" ↔ ∀ c ∈ MILESTONE_COLS, getVal cols row c = none := by
  have hall : ((MILESTONE_COLS.map (getVal cols row)).all (· = none)) = true ↔
      ∀ c ∈ MILESTONE_COLS, getVal cols row c = none := by simp
  rw [status_row_eq_ite]
  by_cases hA : ((MILESTONE_COLS.map (getVal cols row)).all (· = none)) = true
  · rw [if_pos hA]
    exact ⟨fun _ => hall.mp hA, fun _ => rfl⟩
  · rw [if_neg hA]
    by_cases hB : ((MILESTONE_COLS.map (getVal cols row)).all (· ≠ none)) = true
    · rw [if_pos hB]
      exact ⟨fun h => absurd h (by decide), fun h => absurd (hall.mpr h) hA⟩
    · rw [if_neg hB]
      exact ⟨fun h => absurd h (by decide), fun h => absurd (hall.mpr h) hA⟩

theorem status_row_fully_iff (cols : List String) (row : List Value) :
    status_row cols row = "Fully Tracked" ↔ ∀ c ∈ MILESTONE_COLS, getVal cols row c ≠ none := by
  have hall : ((MILESTONE_COLS.map (getVal cols row)).all (· = none)) = true ↔
      ∀ c ∈ MILESTONE_COLS, getVal cols row c = none := by simp
  have hallB : ((MILESTONE_COLS.map (getVal cols row)).all (· ≠ none)) = true ↔
      ∀ c ∈ MILESTONE_COLS, getVal cols row c ≠ none := by simp
  rw [status_row_eq_ite]
  by_cases hA : ((MILESTONE_COLS.map (getVal cols row)).all (· = none)) = true
  · rw [if_pos hA]
    refine ⟨fun h => absurd h (by decide), fun h => ?_⟩
    exact absurd (hall.mp hA "Pickup Arrival Utc Timestamp Raw" (by simp [MILESTONE_COLS]))
      (h "Pickup Arrival Utc Timestamp Raw" (by simp [MILESTONE_COLS]))
  · rw [if_neg hA]
    by_cases hB : ((MILESTONE_COLS.map (getVal cols row)).all (· ≠ none)) = true
    · rw [if_pos hB]
      exact ⟨fun _ => hallB.mp hB, fun _ => rfl⟩
    · rw [if_neg hB]
      exact ⟨fun h => absurd h (by decide), fun h => absurd (hallB.mpr h) hB⟩

theorem status_row_mem_labels (cols : List String) (row : List Value) :
    status_row cols row = "Fully Tracked" ∨ status_row cols row = "Partially Tracked" ∨
      status_row cols row = "Untracked" := by
  simp only [status_row]
  split
  · exact Or.inr (Or.inr rfl)
  · split
    · exact Or.inl rfl
    · exact Or.inr (Or.inl rfl)

theorem status_row_congr {cols cols2 : List String} {row row2 : List Value}
    (h : ∀ c ∈ MILESTONE_COLS, getVal cols2 row2 c = getVal cols row c) :
    status_row cols2 row2 = status_row cols row := by
  have hmap : MILESTONE_COLS.map (getVal cols2 row2) = MILESTONE_COLS.map (getVal cols row) :=
    List.map_congr_left h
  simp only [status_row, hmap]

/-! ## Helper lemmas on the summary construction -/

theorem zip_map_append (f : List Value → Value) :
    ∀ (l : List (List Value)),
      ((l.zip (l.map f)).map fun p => p.1 ++ [p.2]) = l.map fun r => r ++ [f r] := by
  intro l
  induction l with
  | nil => rfl
  | cons a l ih => simp [ih]

theorem countryKeys_mem {df : DataFrame} {k : Cell} :
    k ∈ countryKeys df ↔ ∃ r ∈ df.rows, getVal df.cols r PICKUP_COUNTRY_COL = some k := by
  unfold countryKeys
  rw [mem_firstDedup]
  simp [List.mem_filterMap]

theorem mkSummaryRow_total (df : DataFrame) (k : Cell) :
    (mkSummaryRow df k).total =
      countStatus df k "Fully Tracked" + countStatus df k "Partially Tracked" +
        countStatus df k "Untracked" := rfl

theorem total_pos_of_valid {df : DataFrame} {k : Cell}
    (hTS : ∀ r ∈ df.rows, getVal df.cols r TRACKING_STATUS_COL ∈
      [some (Cell.str "Fully Tracked"), some (Cell.str "Partially Tracked"),
       some (Cell.str "Untracked")])
    (hk : k ∈ countryKeys df) :
    1 ≤ (mkSummaryRow df k).total := by
  rcases countryKeys_mem.mp hk with ⟨r, hr, hrk⟩
  have hrg : r ∈ groupRows df k := List.mem_filter.mpr ⟨hr, by simp [hrk]⟩
  have hstat := hTS r hr
  simp only [List.mem_cons, List.not_mem_nil, or_false] at hstat
  rw [mkSummaryRow_total]
  rcases hstat with h | h | h
  · have h1 : r ∈ (groupRows df k).filter
        (fun x => getVal df.cols x TRACKING_STATUS_COL = some (.str "Fully Tracked")) :=
      List.mem_filter.mpr ⟨hrg, by simp [h]⟩
    have h2 : 0 < countStatus df k "Fully Tracked" := List.length_pos_of_mem h1
    omega
  · have h1 : r ∈ (groupRows df k).filter
        (fun x => getVal df.cols x TRACKING_STATUS_COL = some (.str "Partially Tracked")) :=
      List.mem_filter.mpr ⟨hrg, by simp [h]⟩
    have h2 : 0 < countStatus df k "Partially Tracked" := List.length_pos_of_mem h1
    omega
  · have h1 : r ∈ (groupRows df k).filter
        (fun x => getVal df.cols x TRACKING_STATUS_COL = some (.str "Untracked")) :=
      List.mem_filter.mpr ⟨hrg, by simp [h]⟩
    have h2 : 0 < countStatus df k "Untracked" := List.length_pos_of_mem h1
    omega

theorem pct_bounds {f p u : ℕ} (h : 1 ≤ f + p + u) :
    0 ≤ (f : ℚ) / ((f + p + u : ℕ) : ℚ) * 100 ∧
      (f : ℚ) / ((f + p + u : ℕ) : ℚ) * 100 ≤
        ((f : ℚ) + (p : ℚ)) / ((f + p + u : ℕ) : ℚ) * 100 ∧
      ((f : ℚ) + (p : ℚ)) / ((f + p + u : ℕ) : ℚ) * 100 ≤ 100 := by
  have hT : (0 : ℚ) < ((f + p + u : ℕ) : ℚ) := by
    have : 0 < f + p + u := h
    exact_mod_cast this
  refine ⟨by positivity, ?_, ?_⟩
  · have h1 : (f : ℚ) ≤ (f : ℚ) + (p : ℚ) := by
      have : (0 : ℚ) ≤ (p : ℚ) := by positivity
      linarith
    have h2 : (f : ℚ) / ((f + p + u : ℕ) : ℚ) ≤ ((f : ℚ) + (p : ℚ)) / ((f + p + u : ℕ) : ℚ) :=
      (div_le_div_iff_of_pos_right hT).mpr h1
    exact mul_le_mul_of_nonneg_right h2 (by norm_num)
  · have h1 : ((f : ℚ) + (p : ℚ)) / ((f + p + u : ℕ) : ℚ) ≤ 1 := by
      rw [div_le_one hT]
      push_cast
      have : (0 : ℚ) ≤ (u : ℚ) := by positivity
      linarith
    calc ((f : ℚ) + (p : ℚ)) / ((f + p + u : ℕ) : ℚ) * 100 ≤ 1 * 100 := by
          exact mul_le_mul_of_nonneg_right h1 (by norm_num)
      _ = 100 := by norm_num

theorem run_pipeline_ok {df : DataFrame} {out : OutputExcel}
    (h : run_pipeline df = .ok out) :
    ∃ enr s, compute_tracking_status df = .ok enr ∧ build_summary enr = .ok s ∧
      out = create_output_excel enr s := by
  unfold run_pipeline at h
  split at h
  · exact absurd h (by simp)
  · next enr heq =>
    split at h
    · exact absurd h (by simp)
    · next s heq2 =>
      injection h with h
      exact ⟨enr, s, heq, heq2, h.symm⟩

/-! ## The claims -/

/-- C1: `status_row` assigns every record exactly one of the three
labels; the label is `Fully Tracked` iff all four milestone values are
non-null, `Untracked` iff all four are null, and `Partially Tracked` in
every other combination; and the label is a pure function of the four
milestone field values only. -/
theorem C1_classification (cols : List String) (row : List Value) :
    (status_row cols row = "Fully Tracked" ∨ status_row cols row = "Partially Tracked" ∨
      status_row cols row = "Untracked") ∧
    (status_row cols row = "Fully Tracked" ↔ ∀ c ∈ MILESTONE_COLS, getVal cols row c ≠ none) ∧
    (status_row cols row = "Untracked" ↔ ∀ c ∈ MILESTONE_COLS, getVal cols row c = none) ∧
    ((¬ ∀ c ∈ MILESTONE_COLS, getVal cols row c = none) →
      (¬ ∀ c ∈ MILESTONE_COLS, getVal cols row c ≠ none) →
      status_row cols row = "Partially Tracked") ∧
    (∀ cols2 row2, (∀ c ∈ MILESTONE_COLS, getVal cols2 row2 c = getVal cols row c) →
      status_row cols2 row2 = status_row cols row) := by
  refine ⟨status_row_mem_labels cols row, status_row_fully_iff cols row,
    status_row_untracked_iff cols row, ?_, fun cols2 row2 h => status_row_congr h⟩
  intro h1 h2
  rcases status_row_mem_labels cols row with h | h | h
  · exact absurd ((status_row_fully_iff cols row).mp h) h2
  · exact h
  · exact absurd ((status_row_untracked_iff cols row).mp h) h1

/-- Witness for C1: the purity component applied to a concrete record
read through two different column layouts that agree on the four
milestone fields. -/
theorem C1_witness :
    status_row (PICKUP_COUNTRY_COL :: MILESTONE_COLS)
        [some (.str "US"), some (.num 1), none, some (.num 1), none] =
      status_row MILESTONE_COLS [some (.num 1), none, some (.num 1), none] :=
  (C1_classification MILESTONE_COLS [some (.num 1), none, some (.num 1), none]).2.2.2.2
    _ _ (by decide)

/-- C2: in every summary row the three status counts sum exactly to
`Grand Total`. -/
theorem C2_counts_sum (df : DataFrame) (rows : List SummaryRow)
    (h : build_summary df = .ok rows) :
    ∀ s ∈ rows, s.fully + s.partly + s.untracked = s.total := by
  intro s hs
  rw [build_summary_ok h] at hs
  unfold summaryOf at hs
  rcases List.mem_map.mp (mem_sortRowsDesc.mp hs) with ⟨k, _, rfl⟩
  rfl

/-- Witness for C2 at the US row of the §8 scenario summary. -/
theorem C2_witness :
    (mkSummaryRow exEnriched (Cell.str "US")).fully +
        (mkSummaryRow exEnriched (Cell.str "US")).partly +
        (mkSummaryRow exEnriched (Cell.str "US")).untracked =
      (mkSummaryRow exEnriched (Cell.str "US")).total :=
  C2_counts_sum exEnriched (summaryOf exEnriched) rfl _ (List.mem_cons_self _ _)

/-- C3 counterexample: in `exTie` the country "B" is first encountered
before "A" and both groups have `Grand Total` 1, yet the summary lists
"A" before "B" — the tie is broken by the sorted group keys, not by
first-encounter order, so the claim is false as stated. -/
theorem C3_counterexample :
    countryKeys exTie = [Cell.str "B", Cell.str "A"] ∧
    (build_summary exTie).toOption.map (List.map SummaryRow.total) = some [1, 1] ∧
    (build_summary exTie).toOption.map (List.map SummaryRow.country) =
      some [Cell.str "A", Cell.str "B"] :=
  ⟨rfl, rfl, rfl⟩

/-- C3 (amended): summary rows are ordered by `Grand Total` descending,
and rows with equal `Grand Total` appear in ascending country-key order
(the order produced by the sorted group-by), not in first-encountered
order. -/
theorem C3_sorted_desc_tie_by_key (df : DataFrame) (rows : List SummaryRow)
    (h : build_summary df = .ok rows) :
    rows.Pairwise fun a b =>
      b.total < a.total ∨
        (a.total = b.total ∧ cellLe a.country b.country = true ∧ a.country ≠ b.country) := by
  rw [build_summary_ok h]
  unfold summaryOf
  have hkeys : (sortCells cellLe (countryKeys df)).Pairwise
      (fun x y => cellLe x y = true ∧ x ≠ y) := by
    have h1 := pairwise_sortCells (countryKeys df)
    have h2 : (sortCells cellLe (countryKeys df)).Nodup :=
      ((perm_sortCells cellLe (countryKeys df)).nodup_iff).mpr
        (nodup_firstDedup (df.rows.filterMap fun r => getVal df.cols r PICKUP_COUNTRY_COL))
    exact h1.and h2
  have hmap : ((sortCells cellLe (countryKeys df)).map (mkSummaryRow df)).Pairwise
      (fun a b => cellLe a.country b.country = true ∧ a.country ≠ b.country) := by
    rw [List.pairwise_map]
    exact hkeys
  exact pairwise_sortRowsDesc hmap

/-- Witness for the amended C3 on the `exTie` summary. -/
theorem C3_witness :
    (summaryOf exTie).Pairwise fun a b =>
      b.total < a.total ∨
        (a.total = b.total ∧ cellLe a.country b.country = true ∧ a.country ≠ b.country) :=
  C3_sorted_desc_tie_by_key exTie (summaryOf exTie) rfl

/-- C4 counterexample: `exNullCountry` has exactly one record and its
country value is null, yet the summary is empty — the null group is
silently dropped, not reported as its own group, so the claim is false
as stated. -/
theorem C4_counterexample :
    exNullCountry.rows.length = 1 ∧
    getVal exNullCountry.cols (exNullCountry.rows.getD 0 []) PICKUP_COUNTRY_COL = none ∧
    build_summary exNullCountry = .ok [] :=
  ⟨rfl, rfl, rfl⟩

/-- C4 (amended): the summary has a row for a country value `c` exactly
when some record carries the non-null country value `c`; records whose
country is null contribute to no summary row (pandas `groupby` drops
null keys). -/
theorem C4_null_group_dropped (df : DataFrame) (rows : List SummaryRow)
    (h : build_summary df = .ok rows) (c : Cell) :
    (∃ s ∈ rows, s.country = c) ↔
      ∃ r ∈ df.rows, getVal df.cols r PICKUP_COUNTRY_COL = some c := by
  rw [build_summary_ok h]
  unfold summaryOf
  constructor
  · rintro ⟨s, hs, rfl⟩
    rcases List.mem_map.mp (mem_sortRowsDesc.mp hs) with ⟨k, hk, rfl⟩
    exact countryKeys_mem.mp (mem_sortCells.mp hk)
  · rintro ⟨r, hr, hrc⟩
    refine ⟨mkSummaryRow df c, ?_, rfl⟩
    exact mem_sortRowsDesc.mpr (List.mem_map.mpr
      ⟨c, mem_sortCells.mpr (countryKeys_mem.mpr ⟨r, hr, hrc⟩), rfl⟩)

/-- Witness for the amended C4: the "A" summary row of `exTie` comes
from a record with country "A". -/
theorem C4_witness :
    ∃ r ∈ exTie.rows, getVal exTie.cols r PICKUP_COUNTRY_COL = some (Cell.str "A") :=
  (C4_null_group_dropped exTie (summaryOf exTie) rfl (Cell.str "A")).mp
    ⟨mkSummaryRow exTie (Cell.str "A"), List.mem_cons_self _ _, rfl⟩

/-- C5: classification succeeds iff every milestone name is a column;
on failure the single error raised before any row is classified carries
exactly the milestone columns that are missing (all of them, in order),
and the error cannot be raised with an empty missing list. -/
theorem C5_missing_milestones (df : DataFrame) :
    ((∃ out, compute_tracking_status df = .ok out) ↔ ∀ c ∈ MILESTONE_COLS, c ∈ df.cols) ∧
    (∀ m, compute_tracking_status df = .error (.missingCols m) →
      m = MILESTONE_COLS.filter (fun c => c ∉ df.cols) ∧ m ≠ [] ∧
        ∀ c, (c ∈ m ↔ c ∈ MILESTONE_COLS ∧ c ∉ df.cols)) := by
  constructor
  · constructor
    · rintro ⟨out, hout⟩
      exact (compute_tracking_status_ok hout).1
    · intro hall
      have hempty : (MILESTONE_COLS.filter (fun c => c ∉ df.cols)) = [] := by
        rw [List.filter_eq_nil_iff]
        intro c hc
        simp [hall c hc]
      refine ⟨setCol df TRACKING_STATUS_COL
        (df.rows.map fun r => some (.str (status_row df.cols r))), ?_⟩
      have hcond : (MILESTONE_COLS.filter (fun c => c ∉ df.cols)).isEmpty = true := by
        rw [hempty]
        rfl
      simp only [compute_tracking_status]
      rw [if_pos hcond]
  · intro m hm
    simp only [compute_tracking_status] at hm
    split at hm
    · exact absurd hm (by simp)
    · next hcond =>
      injection hm with hm
      injection hm with hm
      subst hm
      refine ⟨rfl, ?_, ?_⟩
      · intro hc
        exact hcond (by rw [hc]; rfl)
      · intro c
        simp [List.mem_filter]

/-- Witness for C5: on `exMissing` the error lists exactly the three
absent milestone columns. -/
theorem C5_witness :
    [ "Pickup Departure Utc Timestamp Raw"
    , "Dropoff Arrival Utc Timestamp Raw"
    , "Dropoff Departure Utc Timestamp Raw" ] =
      MILESTONE_COLS.filter (fun c => c ∉ exMissing.cols) :=
  ((C5_missing_milestones exMissing).2 _ rfl).1

/-- C6: when `build_summary` is applied to enriched records (every
tracking-status value is one of the three labels), every summary row
satisfies `0 ≤ FullyTrackedPercent ≤ DataAvailabilityPercent ≤ 100`. -/
theorem C6_percent_bounds (df : DataFrame) (rows : List SummaryRow)
    (hTS : ∀ r ∈ df.rows, getVal df.cols r TRACKING_STATUS_COL ∈
      [some (Cell.str "Fully Tracked"), some (Cell.str "Partially Tracked"),
       some (Cell.str "Untracked")])
    (h : build_summary df = .ok rows) :
    ∀ s ∈ rows, 0 ≤ s.fullyPct ∧ s.fullyPct ≤ s.availPct ∧ s.availPct ≤ 100 := by
  intro s hs
  rw [build_summary_ok h] at hs
  unfold summaryOf at hs
  rcases List.mem_map.mp (mem_sortRowsDesc.mp hs) with ⟨k, hk, rfl⟩
  have htot := total_pos_of_valid hTS (mem_sortCells.mp hk)
  rw [mkSummaryRow_total] at htot
  exact pct_bounds htot

/-- Witness for C6 at the US row of the §8 scenario summary. -/
theorem C6_witness :
    0 ≤ (mkSummaryRow exEnriched (Cell.str "US")).fullyPct ∧
      (mkSummaryRow exEnriched (Cell.str "US")).fullyPct ≤
        (mkSummaryRow exEnriched (Cell.str "US")).availPct ∧
      (mkSummaryRow exEnriched (Cell.str "US")).availPct ≤ 100 :=
  C6_percent_bounds exEnriched (summaryOf exEnriched) (by decide) rfl _
    (List.mem_cons_self _ _)

/-- C7: whenever the pipeline succeeds, re-summarizing the table placed
on the "Enriched Data" sheet reproduces exactly the table placed on the
"Summary" sheet. -/
theorem C7_roundtrip (df : DataFrame) (out : OutputExcel)
    (h : run_pipeline df = .ok out) :
    build_summary out.enriched = .ok out.summary := by
  rcases run_pipeline_ok h with ⟨enr, s, _, hb, rfl⟩
  exact hb

/-- Witness for C7 on the §8 scenario run. -/
theorem C7_witness :
    build_summary exEnriched = .ok (summaryOf exEnriched) :=
  C7_roundtrip exRaw (create_output_excel exEnriched (summaryOf exEnriched)) rfl

/-- C8 counterexample: on an input that already carries a
`Tracking Status` column the classifier overwrites that column in place:
the output has exactly the input's columns (no new field is appended)
and the original value "old" is replaced, so the claim is false as
stated. -/
theorem C8_counterexample :
    compute_tracking_status exPreStatus = .ok
      { cols := TRACKING_STATUS_COL :: MILESTONE_COLS
        rows := [[some (.str "Fully Tracked"), some (.num 1), some (.num 1), some (.num 1),
                  some (.num 1)]] } ∧
    (TRACKING_STATUS_COL :: MILESTONE_COLS) = exPreStatus.cols ∧
    getVal exPreStatus.cols (exPreStatus.rows.getD 0 []) TRACKING_STATUS_COL =
      some (.str "old") :=
  ⟨rfl, rfl, rfl⟩

/-- C8 (amended): provided the input does not already have a
`Tracking Status` column, the classifier's output has exactly the
input's columns plus `Tracking Status` appended on the right, and each
row is the corresponding input row unchanged with the label appended,
in the same order; the input frame itself is a pure value and is never
mutated. -/
theorem C8_frame_effect (df out : DataFrame)
    (hts : TRACKING_STATUS_COL ∉ df.cols)
    (h : compute_tracking_status df = .ok out) :
    out.cols = df.cols ++ [TRACKING_STATUS_COL] ∧
    out.rows = df.rows.map fun r => r ++ [some (.str (status_row df.cols r))] := by
  rcases compute_tracking_status_ok h with ⟨_, rfl⟩
  unfold setCol
  rw [if_neg hts]
  exact ⟨rfl, zip_map_append _ df.rows⟩

/-- Witness for the amended C8 on the §8 scenario input. -/
theorem C8_witness :
    exEnriched.cols = exRaw.cols ++ [TRACKING_STATUS_COL] ∧
    exEnriched.rows = exRaw.rows.map fun r => r ++ [some (.str (status_row exRaw.cols r))] :=
  C8_frame_effect exRaw exEnriched (by decide) rfl

/-- C9: on enriched records every materialized country group holds at
least one record, so every summary row's `Grand Total` is at least 1
and the denominator of the two percentage divisions is never zero. -/
theorem C9_no_zero_denominator (df : DataFrame) (rows : List SummaryRow)
    (hTS : ∀ r ∈ df.rows, getVal df.cols r TRACKING_STATUS_COL ∈
      [some (Cell.str "Fully Tracked"), some (Cell.str "Partially Tracked"),
       some (Cell.str "Untracked")])
    (h : build_summary df = .ok rows) :
    ∀ s ∈ rows, 1 ≤ s.total ∧ ((s.total : ℚ) ≠ 0) := by
  intro s hs
  rw [build_summary_ok h] at hs
  unfold summaryOf at hs
  rcases List.mem_map.mp (mem_sortRowsDesc.mp hs) with ⟨k, hk, rfl⟩
  have htot := total_pos_of_valid hTS (mem_sortCells.mp hk)
  refine ⟨htot, ne_of_gt ?_⟩
  exact_mod_cast Nat.lt_of_lt_of_le Nat.zero_lt_one htot

/-- Witness for C9 at the DE row of the §8 scenario summary. -/
theorem C9_witness :
    1 ≤ (mkSummaryRow exEnriched (Cell.str "DE")).total ∧
      (((mkSummaryRow exEnriched (Cell.str "DE")).total : ℚ) ≠ 0) :=
  C9_no_zero_denominator exEnriched (summaryOf exEnriched) (by decide) rfl _
    (List.mem_cons_of_mem _ (List.mem_cons_self _ _))

/-- C10: only a null milestone value counts as absent — whenever all
four milestone values are non-null, of any type, the record is
classified `Fully Tracked`; in particular this holds for a record whose
milestone fields all hold empty strings (see the witness). -/
theorem C10_nonnull_is_present (cols : List String) (row : List Value)
    (h : ∀ c ∈ MILESTONE_COLS, getVal cols row c ≠ none) :
    status_row cols row = "Fully Tracked" :=
  (status_row_fully_iff cols row).mpr h

/-- Witness for C10: the all-empty-string record is `Fully Tracked`. -/
theorem C10_witness :
    status_row MILESTONE_COLS exEmptyStrRow = "Fully Tracked" :=
  C10_nonnull_is_present MILESTONE_COLS exEmptyStrRow (by decide)
